import Mathlib

/-!
Verification of the Call Orchestrator (`app/managers/openfabric_manager.py`)
and the Generation Store (`app/managers/memory_manager.py`) against their
natural-language specification.

The Python code is shallowly embedded: the SQLite table `generations` becomes
a list of `Record`s plus the `sqlite_sequence` counter used by
`INTEGER PRIMARY KEY AUTOINCREMENT`; the file system becomes the list of
paths of currently existing files; the upstream stub becomes a function from
attempt index to outcome.  `created_at` timestamps (SQLite `TIMESTAMP`
strings, compared lexicographically, which agrees with chronological order
for the fixed format) are modelled as natural numbers.
-/

namespace App

/-! ### String helpers

Python `s.lower()` and SQLite `LOWER(...)` are per-character ASCII
lowercasing; Python `s.split()` splits on runs of whitespace and drops
empty pieces; SQL `LIKE '%pat%'` (with no wildcard characters inside `pat`)
is substring containment, ASCII case-insensitive.  All helpers recurse
structurally over the character list so that concrete instances evaluate. -/

/-- Does the character list start with the given pattern? -/
def startsWithChars : List Char → List Char → Bool
  | _, [] => true
  | [], _ :: _ => false
  | c :: cs, d :: ds => c == d && startsWithChars cs ds

/-- Does the character list contain the pattern as a contiguous sublist? -/
def containsChars : List Char → List Char → Bool
  | [], pat => startsWithChars [] pat
  | c :: cs, pat => startsWithChars (c :: cs) pat || containsChars cs pat

/-- Substring containment on strings. -/
def strHas (s pat : String) : Bool :=
  containsChars s.toList pat.toList

/-- ASCII lowercasing of every character (`LOWER` / `str.lower`). -/
def lowerStr (s : String) : String :=
  String.mk (s.data.map Char.toLower)

/-- Accumulator loop of `splitWs`: the first argument is the remaining
input, the second the current word reversed. -/
def splitWsAux : List Char → List Char → List String
  | [], acc => if acc.isEmpty then [] else [String.mk acc.reverse]
  | c :: cs, acc =>
    if c.isWhitespace then
      if acc.isEmpty then splitWsAux cs []
      else String.mk acc.reverse :: splitWsAux cs []
    else splitWsAux cs (c :: acc)

/-- Python `str.split()`: split on whitespace runs, dropping empty pieces. -/
def splitWs (s : String) : List String :=
  splitWsAux s.data []

/-- The empty pattern is contained in every character list. -/
theorem containsChars_nil (s : List Char) : containsChars s [] = true := by
  cases s <;> simp [containsChars, startsWithChars]

/-- The empty pattern is contained in every string. -/
theorem strHas_nil (s : String) : strHas s "" = true := by
  simp [strHas, containsChars_nil]

/-! ### Call Orchestrator (`openfabric_manager.py`)

`OpenfabricManager._call_with_retry` loops `for attempt in range(3)`, calling
`self.stub.call`.  A truthy response is returned at once.  An exception whose
text contains `"Resource not found"` sleeps `retry_delay` seconds before the
next iteration unless it happened on the last attempt; every other exception
is logged — and the `for` loop then simply moves on to the next attempt,
because the handler neither returns nor breaks.  Falling off the loop yields
`None`.

The stub is modelled as a function from the attempt index to the outcome of
`self.stub.call` on that attempt: either a returned Python value or a raised
exception carrying a message. -/

/-- A Python value as seen by the orchestrator: a `dict` (fields mapped to
abstract payloads) or any other value with the given truthiness. -/
inductive Resp where
  | rdict (fields : List (String × String))
  | other (truthy : Bool)
deriving DecidableEq

/-- Python truthiness of a response: a `dict` is truthy iff non-empty. -/
def Resp.truthy : Resp → Bool
  | .rdict fields => !fields.isEmpty
  | .other b => b

/-- Outcome of one `self.stub.call` invocation. -/
inductive StubOutcome where
  | ok (r : Resp)
  | err (msg : String)
deriving DecidableEq

/-- `self.max_retries` set in `OpenfabricManager.__init__`. -/
def maxRetries : Nat := 3

/-- Is the exception retried?  `"Resource not found" in str(e)`. -/
def retryable (msg : String) : Bool :=
  strHas msg "Resource not found"

/-- Observable outcome of `_call_with_retry`: the returned value, how many
times `self.stub.call` was invoked, and how many times `time.sleep` ran. -/
structure CallResult where
  result : Option Resp
  attempts : Nat
  sleeps : Nat
deriving DecidableEq

/-- The `for attempt in range(self.max_retries)` loop of `_call_with_retry`,
iterating over the list of remaining attempt indices.  A truthy response
returns at once; a falsy response falls through to the next iteration; an
exception retried only in the `"Resource not found"` branch sleeps when it
is not the last attempt — in every other exception case the handler merely
logs and the loop moves on to the next attempt. -/
def callLoop (stub : Nat → StubOutcome) : List Nat → CallResult
  | [] => ⟨none, 0, 0⟩
  | attempt :: rest =>
    match stub attempt with
    | .ok r =>
      if r.truthy then ⟨some r, 1, 0⟩
      else
        let c := callLoop stub rest
        ⟨c.result, c.attempts + 1, c.sleeps⟩
    | .err msg =>
      if retryable msg ∧ attempt < maxRetries - 1 then
        let c := callLoop stub rest
        ⟨c.result, c.attempts + 1, c.sleeps + 1⟩
      else
        let c := callLoop stub rest
        ⟨c.result, c.attempts + 1, c.sleeps⟩

/-- `OpenfabricManager._call_with_retry`. -/
def call_with_retry (stub : Nat → StubOutcome) : CallResult :=
  callLoop stub (List.range maxRetries)

/-- First binding of a key in a field list (Python `d[k]` / `k in d`). -/
def lookupField (fields : List (String × String)) (k : String) : Option String :=
  match fields.find? (fun kv => kv.1 == k) with
  | some kv => some kv.2
  | none => none

/-- Does the field list bind the key?  Python `k in d`. -/
def hasKey (fields : List (String × String)) (k : String) : Bool :=
  (lookupField fields k).isSome

/-- `OpenfabricManager.convert_to_3d`: call the image-to-3d app through
`_call_with_retry`, then normalize.  The guard is Python
`if response and isinstance(response, dict)`, so a falsy (empty) dict falls
through to `return None` exactly like a non-dict response.  The request
payload (the base64-encoded image) does not influence the normalization and
is abstracted into the stub. -/
def convert_to_3d (stub : Nat → StubOutcome) : Option (List (String × String)) :=
  match (call_with_retry stub).result with
  | some response =>
    if response.truthy then
      match response with
      | .rdict fields =>
        some
          ((match lookupField fields "generated_object" with
            | some v => [("model", v)]
            | none => []) ++
           (match lookupField fields "video_object" with
            | some v => [("video", v)]
            | none => []))
      | .other _ => none
    else none
  | none => none

/-! ### Generation Store data model (`memory_manager.py`)

`_init_db` creates the single table

  `generations(id INTEGER PRIMARY KEY AUTOINCREMENT, prompt TEXT NOT NULL,
   enhanced_prompt TEXT, image_path TEXT, model_path TEXT,
   created_at TIMESTAMP DEFAULT CURRENT_TIMESTAMP, metadata TEXT)`.

`metadata` is stored as JSON text (`json.dumps(metadata) if metadata else
None`); the only shape the application ever writes (gui.py, "Update Image")
is `{"edit_history": {original_prompt, edit_prompt,
previous_enhanced_prompt, timestamp}}`, so metadata is modelled by that
shape with every field optional; a missing path under `json_extract`
evaluates to SQL `NULL`. -/

/-- The `edit_history` object inside a record's metadata JSON. -/
structure EditHistory where
  original_prompt : Option String
  edit_prompt : Option String
  previous_enhanced_prompt : Option String
  timestamp : Option String
deriving DecidableEq

/-- A metadata JSON payload. -/
structure Metadata where
  edit_history : Option EditHistory
deriving DecidableEq

/-- One row of the `generations` table. -/
structure Record where
  id : Nat
  prompt : String
  enhanced_prompt : Option String
  image_path : Option String
  model_path : Option String
  created_at : Nat
  metadata : Option Metadata
deriving DecidableEq

/-- `json_extract(metadata, '$.edit_history.original_prompt')`:
SQL `NULL` (here `none`) when metadata is `NULL` or the path is absent. -/
def metaOriginalPrompt (m : Option Metadata) : Option String :=
  (m.bind (fun md => md.edit_history)).bind (fun eh => eh.original_prompt)

/-- Python `json.loads(metadata).get('edit_history', {}).get('previous_enhanced_prompt')`. -/
def metaPrevEnhanced (m : Option Metadata) : Option String :=
  (m.bind (fun md => md.edit_history)).bind (fun eh => eh.previous_enhanced_prompt)

/-- `ORDER BY created_at DESC` comparison. -/
def createdDesc (a b : Record) : Prop := b.created_at ≤ a.created_at

instance : DecidableRel createdDesc := fun a b => Nat.decLe _ _

instance : IsTotal Record createdDesc :=
  ⟨fun a b => (Nat.le_total b.created_at a.created_at)⟩

instance : IsTrans Record createdDesc :=
  ⟨fun _ _ _ hab hbc => Nat.le_trans hbc hab⟩

/-- `ORDER BY created_at ASC` comparison. -/
def createdAsc (a b : Record) : Prop := a.created_at ≤ b.created_at

instance : DecidableRel createdAsc := fun a b => Nat.decLe _ _

instance : IsTotal Record createdAsc :=
  ⟨fun a b => Nat.le_total a.created_at b.created_at⟩

instance : IsTrans Record createdAsc :=
  ⟨fun _ _ _ hab hbc => Nat.le_trans hab hbc⟩

/-- Rows sorted by `ORDER BY created_at DESC`. -/
def sortByCreatedDesc (rows : List Record) : List Record :=
  List.insertionSort createdDesc rows

/-- Rows sorted by `ORDER BY created_at ASC`. -/
def sortByCreatedAsc (rows : List Record) : List Record :=
  List.insertionSort createdAsc rows

/-- The database state: the table rows plus the `sqlite_sequence` counter
that `INTEGER PRIMARY KEY AUTOINCREMENT` maintains — the largest id ever
assigned, never decreased by row deletion, so ids are never reused. -/
structure DB where
  rows : List Record
  seq : Nat
deriving DecidableEq

/-- A freshly created database (`_init_db` on a new file). -/
def DB.empty : DB := ⟨[], 0⟩

/-- `SELECT * FROM generations WHERE id = ?` followed by `fetchone()`. -/
def findById (rows : List Record) (gid : Nat) : Option Record :=
  rows.find? (fun r => r.id == gid)

/-! ### Store operations -/

/-- `MemoryManager.save_generation`: inserts the row and returns
`cursor.lastrowid`.  Under `AUTOINCREMENT` the new id is one more than the
sequence counter.  `now` stands for the `CURRENT_TIMESTAMP` default filled
in by SQLite.  The `except` branch returning `-1` fires only on a storage
failure, outside this model of valid inserts. -/
def save_generation (db : DB) (now : Nat) (prompt : String)
    (enhanced : Option String) (image_path model_path : Option String)
    (metadata : Option Metadata) : DB × Nat :=
  let newId := db.seq + 1
  (⟨db.rows ++ [⟨newId, prompt, enhanced, image_path, model_path, now, metadata⟩],
    newId⟩, newId)

/-- Python `if path and os.path.exists(path)`: the path is non-`NULL`,
non-empty (Python truthiness) and the file currently exists.  `fs` is the
set of existing files. -/
def pathLive (fs : List String) : Option String → Bool
  | some p => p ≠ "" && fs.contains p
  | none => false

/-- One guarded `os.remove` of `delete_generation` / `clear_database`:
skipped when the path is falsy or the file is absent; `ok` tells whether
`os.remove` itself succeeds — on failure the exception is caught, logged,
and the file kept. -/
def tryRemove (ok : String → Bool) (fs : List String) (p : Option String) :
    List String :=
  match p with
  | some path =>
    if path ≠ "" ∧ fs.contains path then
      if ok path then fs.erase path else fs
    else fs
  | none => fs

/-- `MemoryManager.delete_generation`: look the row up by id; if present,
best-effort-remove its two blobs, delete the row, and return `True`; if
absent return `False`.  The trailing empty-directory cleanup touches only
directories, which are outside the modelled file set, and affects neither
the rows nor the returned Boolean. -/
def delete_generation (db : DB) (fs : List String) (ok : String → Bool)
    (gid : Nat) : DB × List String × Bool :=
  match findById db.rows gid with
  | some r =>
    let fs1 := tryRemove ok fs r.image_path
    let fs2 := tryRemove ok fs1 r.model_path
    (⟨db.rows.filter (fun q => q.id != gid), db.seq⟩, fs2, true)
  | none => (db, fs, false)

/-- `MemoryManager.clear_database`: best-effort-remove every row's blobs,
then `DELETE FROM generations` (which leaves `sqlite_sequence` untouched). -/
def clear_database (db : DB) (fs : List String) (ok : String → Bool) :
    DB × List String × Bool :=
  let fs2 := db.rows.foldl
    (fun acc r => tryRemove ok (tryRemove ok acc r.image_path) r.model_path) fs
  (⟨[], db.seq⟩, fs2, true)

/-- `MemoryManager.search_generations`: rows where
`prompt LIKE '%term%' OR enhanced_prompt LIKE '%term%'` (SQLite `LIKE` is
ASCII case-insensitive; `LIKE` on a `NULL` enhanced prompt is not true),
ordered by creation time descending. -/
def matchesSearch (r : Record) (term : String) : Bool :=
  strHas (lowerStr r.prompt) (lowerStr term) ||
    (match r.enhanced_prompt with
     | some e => strHas (lowerStr e) (lowerStr term)
     | none => false)

/-- `MemoryManager.search_generations`. -/
def search_generations (rows : List Record) (term : String) : List Record :=
  sortByCreatedDesc (rows.filter (fun r => matchesSearch r term))

/-- Result shape of `MemoryManager.get_database_info`: the `PRAGMA
table_info` column list and every entry paired with its derived `status`
string. -/
structure DbInfo where
  total_entries : Nat
  table_info : List String
  entries : List (Record × String)
deriving DecidableEq

/-- The column names reported by `PRAGMA table_info(generations)`. -/
def tableColumns : List String :=
  ["id", "prompt", "enhanced_prompt", "image_path", "model_path",
   "created_at", "metadata"]

/-- The status loop body of `get_database_info`: `Complete` when the model
file exists, else `Image Only` when the image file exists, else
`Incomplete`. -/
def statusOf (fs : List String) (r : Record) : String :=
  if pathLive fs r.model_path then "Complete"
  else if pathLive fs r.image_path then "Image Only"
  else "Incomplete"

/-- `MemoryManager.get_database_info`. -/
def get_database_info (rows : List Record) (fs : List String) : DbInfo :=
  let entries := (sortByCreatedDesc rows).map (fun r => (r, statusOf fs r))
  ⟨entries.length, tableColumns, entries⟩

/-- One entry of the list returned by `MemoryManager.get_edit_history`:
the Python dicts carry `type` `'original'` (prompt, enhanced prompt,
timestamp) or `type` `'edit'` (prompt, enhanced prompt, the previous
enhanced prompt, timestamp). -/
inductive LineageEntry where
  | original (prompt : String) (enhanced : Option String) (timestamp : Nat)
  | edit (prompt : String) (enhanced : Option String) (prev : Option String)
      (timestamp : Nat)
deriving DecidableEq

/-- Timestamp carried by a lineage entry. -/
def LineageEntry.stamp : LineageEntry → Nat
  | .original _ _ t => t
  | .edit _ _ _ t => t

/-- Is the entry tagged `'edit'`? -/
def LineageEntry.isEdit : LineageEntry → Bool
  | .original _ _ _ => false
  | .edit _ _ _ _ => true

/-- The lineage entry built from one edit row. -/
def editEntry (e : Record) : LineageEntry :=
  .edit e.prompt e.enhanced_prompt (metaPrevEnhanced e.metadata) e.created_at

/-- `MemoryManager.get_edit_history`: fetch the originating row by id —
when the id does not exist, `dict(cursor.fetchone())` is `dict(None)`,
whose `TypeError` the `except` catches, returning `[]`.  Otherwise select
every row whose `json_extract(metadata, '$.edit_history.original_prompt')`
equals the original's prompt, `ORDER BY created_at ASC`, and emit the
original entry followed by one edit entry per selected row. -/
def get_edit_history (rows : List Record) (gid : Nat) : List LineageEntry :=
  match findById rows gid with
  | none => []
  | some orig =>
    let edits := sortByCreatedAsc
      (rows.filter (fun r => metaOriginalPrompt r.metadata == some orig.prompt))
    LineageEntry.original orig.prompt orig.enhanced_prompt orig.created_at ::
      edits.map editEntry

/-! ### `MemoryManager.get_latest_context`

The query is

  `SELECT *, COUNT(*) as match_count FROM generations
   WHERE LOWER(prompt) LIKE ? OR ... GROUP BY id
   ORDER BY match_count DESC, created_at DESC LIMIT 1`

with one `LIKE` disjunct and one `'%word%'` parameter per distinct
lower-cased word of the input.  `GROUP BY id` groups the rows selected by
`WHERE`; `COUNT(*)` is the size of each group.  With zero words the `WHERE`
clause is empty text and the SQL is malformed; the raised error is caught
by the `except`, which returns `None`. -/

/-- Does the row satisfy the `WHERE` disjunction: some keyword is a
substring of `LOWER(prompt)`? -/
def matchesAnyWord (words : List String) (r : Record) : Bool :=
  words.any (fun w => strHas (lowerStr r.prompt) w)

/-- `GROUP BY id` over the selected rows: one output row per distinct id,
carrying a representative row and the group size (`COUNT(*)`). -/
def groupById (rows : List Record) : List (Record × Nat) :=
  ((rows.map (fun r => r.id)).dedup).filterMap (fun i =>
    match rows.filter (fun r => r.id == i) with
    | [] => none
    | r :: rs => some (r, rs.length + 1))

/-- Does `a` come strictly before `b` under
`ORDER BY match_count DESC, created_at DESC`? -/
def ctxBefore (a b : Record × Nat) : Bool :=
  b.2 < a.2 || (a.2 == b.2 && b.1.created_at < a.1.created_at)

/-- `LIMIT 1` after the `ORDER BY`: a row strictly maximal under
`ctxBefore` (earlier listed rows win ties). -/
def pickTop : List (Record × Nat) → Option (Record × Nat)
  | [] => none
  | x :: xs =>
    match pickTop xs with
    | none => some x
    | some y => if ctxBefore y x then some y else some x

/-- `MemoryManager.get_latest_context`. -/
def get_latest_context (rows : List Record) (prompt : String) :
    Option Record :=
  let words := (splitWs (lowerStr prompt)).dedup
  if words.isEmpty then none
  else (pickTop (groupById (rows.filter (matchesAnyWord words)))).map
    (fun x => x.1)

/-- Spec-side selector: the first listed record with maximal creation time
(later records win only strictly). -/
def mostRecentFirst : List Record → Option Record
  | [] => none
  | r :: rs =>
    match mostRecentFirst rs with
    | none => some r
    | some y => if r.created_at < y.created_at then some y else some r

/-! ### Operation traces

For the id-assignment claims the store is run as a state machine: a trace
of `save_generation` / `delete_generation` / `clear_database` calls applied
to a fresh database.  `ok` is the oracle deciding which `os.remove` calls
succeed. -/

/-- The database paired with the file system it manages blobs on. -/
structure Sys where
  db : DB
  fs : List String
deriving DecidableEq

/-- One store mutation. -/
inductive StoreOp where
  | save (now : Nat) (prompt : String) (enhanced : Option String)
      (image_path model_path : Option String) (metadata : Option Metadata)
  | delete (gid : Nat)
  | clear
deriving DecidableEq

/-- Apply one operation to the system state. -/
def applyOp (ok : String → Bool) (s : Sys) (op : StoreOp) : Sys :=
  match op with
  | .save now p e ip mp md =>
    ⟨(save_generation s.db now p e ip mp md).1, s.fs⟩
  | .delete gid =>
    let r := delete_generation s.db s.fs ok gid
    ⟨r.1, r.2.1⟩
  | .clear =>
    let r := clear_database s.db s.fs ok
    ⟨r.1, r.2.1⟩

/-- Run a trace of operations. -/
def runOps (ok : String → Bool) (s : Sys) (ops : List StoreOp) : Sys :=
  ops.foldl (applyOp ok) s

/-! ## Claim C1 — retry policy -/

/-- A stub that fails once with a non-retryable error and then succeeds. -/
def c1NonRetryStub : Nat → StubOutcome := fun n =>
  if n = 0 then .err "upstream internal failure" else .ok (.other true)

/-- A stub that fails once with the not-ready signature and then succeeds. -/
def c1RetryStub : Nat → StubOutcome := fun n =>
  if n = 0 then .err "Error: Resource not found" else .ok (.other true)

/-- C1 counterexample: a stub that fails with a non-retryable error on the
first attempt is NOT terminal after one attempt — the loop keeps going and
here returns the second attempt's success after 2 attempts, where the claim
demands exactly 1 attempt and `None`. -/
theorem retry_nonretryable_error_not_terminal :
    call_with_retry c1NonRetryStub = ⟨some (.other true), 2, 0⟩ ∧
    (call_with_retry c1NonRetryStub).attempts ≠ 1 ∧
    (call_with_retry c1NonRetryStub).result ≠ none := by
  decide

/-- C1 (amended): a stub failing with the not-ready signature on every
attempt yields 3 attempts, 2 delays, and `None`; a stub failing with
non-retryable errors on every attempt likewise yields 3 attempts and `None`
(only without delays) — a non-retryable failure is not terminal; a stub
that fails once and then succeeds returns the success using exactly 2
attempts, sleeping only when the first failure was the not-ready one. -/
theorem retry_loop_behavior (stub : Nat → StubOutcome) :
    ((∀ n, n < maxRetries → ∃ m, stub n = .err m ∧ retryable m = true) →
      call_with_retry stub = ⟨none, 3, 2⟩) ∧
    ((∀ n, n < maxRetries → ∃ m, stub n = .err m ∧ retryable m = false) →
      call_with_retry stub = ⟨none, 3, 0⟩) ∧
    (∀ m r, stub 0 = .err m → stub 1 = .ok r → r.truthy = true →
      call_with_retry stub =
        ⟨some r, 2, if retryable m then 1 else 0⟩) := by
  have hrange : List.range maxRetries = [0, 1, 2] := rfl
  refine ⟨?_, ?_, ?_⟩
  · intro h
    obtain ⟨m0, e0, r0⟩ := h 0 (by decide)
    obtain ⟨m1, e1, r1⟩ := h 1 (by decide)
    obtain ⟨m2, e2, r2⟩ := h 2 (by decide)
    simp [call_with_retry, hrange, callLoop, e0, e1, e2, r0, r1, r2, maxRetries]
  · intro h
    obtain ⟨m0, e0, r0⟩ := h 0 (by decide)
    obtain ⟨m1, e1, r1⟩ := h 1 (by decide)
    obtain ⟨m2, e2, r2⟩ := h 2 (by decide)
    simp [call_with_retry, hrange, callLoop, e0, e1, e2, r0, r1, r2, maxRetries]
  · intro m r h0 h1 ht
    cases hm : retryable m <;>
      simp [call_with_retry, hrange, callLoop, h0, h1, ht, hm, maxRetries]

/-- C1 witness: the three scenarios of the amended claim at concrete
stubs. -/
theorem retry_loop_behavior_witness :
    call_with_retry (fun _ => .err "Resource not found (queued)") = ⟨none, 3, 2⟩ ∧
    call_with_retry (fun _ => .err "connection reset") = ⟨none, 3, 0⟩ ∧
    call_with_retry c1RetryStub = ⟨some (.other true), 2, 1⟩ := by
  refine ⟨(retry_loop_behavior _).1 ?_, (retry_loop_behavior _).2.1 ?_, ?_⟩
  · intro n _
    exact ⟨"Resource not found (queued)", rfl, by decide⟩
  · intro n _
    exact ⟨"connection reset", rfl, by decide⟩
  · have h := (retry_loop_behavior c1RetryStub).2.2
      "Error: Resource not found" (.other true) rfl rfl rfl
    have hr : retryable "Error: Resource not found" = true := by decide
    simpa [hr] using h

/-! ## Claim C3 — convert_to_3d response normalization -/

/-- C3 counterexample: a stub whose response is `{}` — a structured object
missing both fields — makes `convert_to_3d` return `None`, not an empty
result map: the empty dict is falsy, so `_call_with_retry` never accepts it
and `if response and isinstance(response, dict)` rejects it as well. -/
theorem convert_to_3d_empty_dict_none :
    convert_to_3d (fun _ => .ok (.rdict [])) = none := by
  decide

/-- C3 (amended): for a NON-EMPTY structured response, the result map has
`model` exactly when the response has `generated_object` and `video`
exactly when it has `video_object` (missing both still yields the empty
result map); but an empty (falsy) dict response is treated like a failure
and yields `None`. -/
theorem convert_to_3d_normalization :
    (∀ stub fields, stub 0 = .ok (.rdict fields) → fields ≠ [] →
      ∃ result, convert_to_3d stub = some result ∧
        hasKey result "model" = hasKey fields "generated_object" ∧
        hasKey result "video" = hasKey fields "video_object" ∧
        (hasKey fields "generated_object" = false →
          hasKey fields "video_object" = false → result = [])) ∧
    (∀ stub, (∀ n, n < maxRetries → stub n = .ok (.rdict [])) →
      convert_to_3d stub = none) := by
  have hrange : List.range maxRetries = [0, 1, 2] := rfl
  constructor
  · intro stub fields h0 hne
    have htr : (Resp.rdict fields).truthy = true := by
      simp [Resp.truthy, hne]
    have hcall : call_with_retry stub = ⟨some (.rdict fields), 1, 0⟩ := by
      simp [call_with_retry, hrange, callLoop, h0, htr]
    refine ⟨(match lookupField fields "generated_object" with
             | some v => [("model", v)]
             | none => []) ++
            (match lookupField fields "video_object" with
             | some v => [("video", v)]
             | none => []), ?_, ?_, ?_, ?_⟩
    · simp [convert_to_3d, hcall, htr]
    · cases hg : lookupField fields "generated_object" <;>
        cases hv : lookupField fields "video_object" <;>
          (simp only [hasKey, hg, hv]; simp [lookupField])
    · cases hg : lookupField fields "generated_object" <;>
        cases hv : lookupField fields "video_object" <;>
          (simp only [hasKey, hg, hv]; simp [lookupField])
    · intro hgf hvf
      have hg : lookupField fields "generated_object" = none := by
        simpa [hasKey, Option.isSome_iff_exists] using hgf
      have hv : lookupField fields "video_object" = none := by
        simpa [hasKey, Option.isSome_iff_exists] using hvf
      simp [hg, hv]
  · intro stub h
    have e0 := h 0 (by decide)
    have e1 := h 1 (by decide)
    have e2 := h 2 (by decide)
    simp [convert_to_3d, call_with_retry, hrange, callLoop, e0, e1, e2,
      Resp.truthy]

/-- C3 witness: a non-empty structured response carrying only
`generated_object` yields a result map with `model` and no `video`. -/
theorem convert_to_3d_normalization_witness :
    (fun (_ : Nat) => StubOutcome.ok (.rdict [("generated_object", "glb")])) 0
        = .ok (.rdict [("generated_object", "glb")]) ∧
    [("generated_object", "glb")] ≠ ([] : List (String × String)) ∧
    ∃ result,
      convert_to_3d (fun _ => .ok (.rdict [("generated_object", "glb")]))
          = some result ∧
      hasKey result "model" = hasKey [("generated_object", "glb")] "generated_object" ∧
      hasKey result "video" = hasKey [("generated_object", "glb")] "video_object" ∧
      (hasKey [("generated_object", "glb")] "generated_object" = false →
        hasKey [("generated_object", "glb")] "video_object" = false → result = []) :=
  ⟨rfl, by decide,
    convert_to_3d_normalization.1 (fun _ => .ok (.rdict [("generated_object", "glb")]))
      [("generated_object", "glb")] rfl (by decide)⟩

/-! ## Claim C4 — search with empty or unmatched term -/

/-- A store record used by concrete counterexamples and witnesses. -/
def dragonRec : Record :=
  ⟨1, "a dragon near a castle", none, none, none, 1, none⟩

/-- A second, more recent store record. -/
def carRec : Record :=
  ⟨2, "a red car", none, none, none, 2, none⟩

/-- C4 counterexample: on a one-record store, searching the empty string
returns that record — `LIKE '%%'` matches every non-`NULL` prompt — not the
empty sequence the claim demands. -/
theorem search_empty_term_returns_all :
    search_generations [dragonRec] "" = [dragonRec] ∧
    search_generations [dragonRec] "" ≠ [] := by
  decide

/-- C4 (amended): the empty-string term matches EVERY record, so `search`
returns the whole store ordered by creation time descending (the empty
sequence only on an empty store); a term matching no record returns the
empty sequence; neither case is a storage error (the operation is total). -/
theorem search_empty_term_and_unmatched (rows : List Record) (term : String) :
    search_generations rows "" = sortByCreatedDesc rows ∧
    ((∀ r ∈ rows, matchesSearch r term = false) →
      search_generations rows term = []) := by
  constructor
  · unfold search_generations
    congr 1
    rw [List.filter_eq_self]
    intro r _
    have h0 : lowerStr "" = "" := rfl
    simp [matchesSearch, h0, strHas_nil]
  · intro h
    unfold search_generations
    have : rows.filter (fun r => matchesSearch r term) = [] := by
      rw [List.filter_eq_nil_iff]
      intro r hr
      simp [h r hr]
    rw [this]
    rfl

/-- C4 witness: both amended behaviors at a concrete two-record store. -/
theorem search_empty_term_and_unmatched_witness :
    search_generations [dragonRec, carRec] "" =
      sortByCreatedDesc [dragonRec, carRec] ∧
    (∀ r ∈ [dragonRec, carRec], matchesSearch r "zeppelin" = false) ∧
    search_generations [dragonRec, carRec] "zeppelin" = [] :=
  ⟨(search_empty_term_and_unmatched [dragonRec, carRec] "zeppelin").1,
   by decide,
   (search_empty_term_and_unmatched [dragonRec, carRec] "zeppelin").2
     (by decide)⟩

/-! ## Claim C10 — empty tokenization -/

/-- C10: a prompt with zero tokens (empty or whitespace-only) makes
`get_latest_context` return `None` — the empty keyword set produces an
empty `WHERE` clause, the malformed SQL raises inside the `try`, and the
`except` converts it to `None`; no exception escapes.  Holds for every
store contents. -/
theorem similar_context_empty_tokens_none (rows : List Record)
    (prompt : String) (h : splitWs (lowerStr prompt) = []) :
    get_latest_context rows prompt = none := by
  simp [get_latest_context, h]

/-- C10 witness: a whitespace-only prompt over a non-empty store. -/
theorem similar_context_empty_tokens_none_witness :
    splitWs (lowerStr "   ") = [] ∧
    get_latest_context [dragonRec] "   " = none :=
  ⟨by decide, similar_context_empty_tokens_none [dragonRec] "   " (by decide)⟩

/-! ## Claim C2 — keyword scoring in get_latest_context -/

/-- Over a table whose ids are distinct — which `INTEGER PRIMARY KEY`
guarantees — every `GROUP BY id` group is a single row, so each
`COUNT(*)` is 1. -/
theorem groupById_of_nodup (rows : List Record)
    (h : (rows.map (fun r => r.id)).Nodup) :
    groupById rows = rows.map (fun r => (r, 1)) := by
  induction rows with
  | nil => rfl
  | cons r t ih =>
    have hh : (r.id :: t.map (fun x => x.id)).Nodup := by simpa using h
    have hmem : r.id ∉ t.map (fun x => x.id) := (List.nodup_cons.mp hh).1
    have ht : (t.map (fun x => x.id)).Nodup := (List.nodup_cons.mp hh).2
    have hded : ((r :: t).map (fun x => x.id)).dedup
        = r.id :: t.map (fun x => x.id) := by
      rw [List.dedup_eq_self.mpr]
      · simp
      · simpa using hh
    have hfilr : t.filter (fun x => x.id == r.id) = [] := by
      rw [List.filter_eq_nil_iff]
      intro x hx
      simp only [beq_iff_eq]
      intro hxe
      exact hmem (hxe ▸ List.mem_map_of_mem (fun y => y.id) hx)
    have hhead : (r :: t).filter (fun x => x.id == r.id) = [r] := by
      rw [List.filter_cons_of_pos (by simp)]
      rw [hfilr]
    have hcongr :
        ((t.map (fun x => x.id)).filterMap (fun i =>
          match (r :: t).filter (fun x => x.id == i) with
          | [] => none
          | q :: qs => some (q, qs.length + 1)))
        = ((t.map (fun x => x.id)).filterMap (fun i =>
          match t.filter (fun x => x.id == i) with
          | [] => none
          | q :: qs => some (q, qs.length + 1))) := by
      apply List.filterMap_congr
      intro i hi
      have hri : (r.id == i) = false := by
        rw [beq_eq_false_iff_ne]
        intro hre
        exact hmem (hre ▸ hi)
      simp [List.filter_cons, hri]
    have htail : groupById t = t.map (fun x => (x, 1)) := ih ht
    unfold groupById at htail ⊢
    rw [hded, List.filterMap_cons, hhead]
    rw [List.dedup_eq_self.mpr ht] at htail
    rw [hcongr, htail]
    simp

/-- With every group of size 1, the `ORDER BY match_count DESC,
created_at DESC LIMIT 1` selector degenerates to picking the most recent
row. -/
theorem pickTop_map_one (l : List Record) :
    pickTop (l.map (fun r => (r, 1))) =
      (mostRecentFirst l).map (fun r => (r, 1)) := by
  induction l with
  | nil => rfl
  | cons r t ih =>
    simp only [List.map_cons, pickTop, ih, mostRecentFirst]
    cases h : mostRecentFirst t with
    | none => rfl
    | some y =>
      by_cases hc : r.created_at < y.created_at <;>
        simp [ctxBefore, hc]

/-- C2 counterexample: over the spec's own two-record store — the
dragon/castle record older, the red-car record newer — the query
`"red dragon castle"` returns the red-car record, not the dragon/castle
record: `COUNT(*)` with `GROUP BY id` is 1 for every matching row, so the
two-keyword match confers no advantage and recency decides. -/
theorem similar_context_example_most_recent_wins :
    get_latest_context [dragonRec, carRec] "red dragon castle" = some carRec ∧
    get_latest_context [dragonRec, carRec] "red dragon castle"
      ≠ some dragonRec := by
  decide

/-- C2 (amended): the per-record score is always 1 (`COUNT(*)` over the
singleton `GROUP BY id` groups), so over any store with distinct ids
`getSimilarContext` returns the MOST RECENT record whose prompt
substring-matches at least one lower-cased keyword — the keyword COUNT
never influences the choice; it still returns `None` when no record
matches any keyword (and when the prompt has no keywords). -/
theorem similar_context_most_recent (rows : List Record) (prompt : String)
    (h : (rows.map (fun r => r.id)).Nodup) :
    get_latest_context rows prompt =
      (if ((splitWs (lowerStr prompt)).dedup).isEmpty then none
       else mostRecentFirst (rows.filter
         (matchesAnyWord ((splitWs (lowerStr prompt)).dedup)))) ∧
    (rows.filter (matchesAnyWord ((splitWs (lowerStr prompt)).dedup)) = [] →
      get_latest_context rows prompt = none) := by
  have hsub : ((rows.filter
      (matchesAnyWord ((splitWs (lowerStr prompt)).dedup))).map
        (fun r => r.id)).Nodup := by
    refine List.Nodup.sublist ?_ h
    exact (List.filter_sublist rows).map _
  have hmain : get_latest_context rows prompt =
      (if ((splitWs (lowerStr prompt)).dedup).isEmpty then none
       else mostRecentFirst (rows.filter
         (matchesAnyWord ((splitWs (lowerStr prompt)).dedup)))) := by
    by_cases hw : ((splitWs (lowerStr prompt)).dedup).isEmpty
    · simp [get_latest_context, hw]
    · simp only [get_latest_context, hw, if_false]
      rw [groupById_of_nodup _ hsub, pickTop_map_one]
      cases mostRecentFirst (rows.filter
        (matchesAnyWord ((splitWs (lowerStr prompt)).dedup))) <;> simp
  refine ⟨hmain, ?_⟩
  intro h0
  rw [hmain, h0]
  by_cases hw : ((splitWs (lowerStr prompt)).dedup).isEmpty <;>
    simp [hw, mostRecentFirst]

/-- C2 witness: the amended statement at the spec's two-record store. -/
theorem similar_context_most_recent_witness :
    (([dragonRec, carRec].map (fun r => r.id)).Nodup) ∧
    (get_latest_context [dragonRec, carRec] "red dragon castle" =
      (if ((splitWs (lowerStr "red dragon castle")).dedup).isEmpty then none
       else mostRecentFirst ([dragonRec, carRec].filter
         (matchesAnyWord ((splitWs (lowerStr "red dragon castle")).dedup)))) ∧
     ([dragonRec, carRec].filter
        (matchesAnyWord ((splitWs (lowerStr "red dragon castle")).dedup)) = [] →
      get_latest_context [dragonRec, carRec] "red dragon castle" = none)) :=
  ⟨by decide,
   similar_context_most_recent [dragonRec, carRec] "red dragon castle"
     (by decide)⟩

/-! ## Claim C5 — edit lineage reconstruction -/

/-- An original generation. -/
def origRec : Record :=
  ⟨1, "a cat", some "an enhanced cat", none, none, 1, none⟩

/-- First edit of `origRec`. -/
def edit1Rec : Record :=
  ⟨2, "make it blue", some "a blue cat", none, none, 2,
    some ⟨some ⟨some "a cat", some "make it blue", some "an enhanced cat",
      some "t1"⟩⟩⟩

/-- Second edit of `origRec`. -/
def edit2Rec : Record :=
  ⟨3, "add a hat", some "a blue cat with hat", none, none, 3,
    some ⟨some ⟨some "a cat", some "add a hat", some "a blue cat",
      some "t2"⟩⟩⟩

/-- A store with one original and its two edits. -/
def lineageStore : List Record := [origRec, edit1Rec, edit2Rec]

/-- C5: when the originating id exists, `get_edit_history` returns the
originating record first, tagged `original`; the remaining entries are
exactly the records whose `metadata.edit_history.original_prompt` equals
the originating record's prompt, each tagged `edit`, in creation-time
ascending order. -/
theorem edit_lineage_structure (rows : List Record) (gid : Nat)
    (orig : Record) (h : findById rows gid = some orig) :
    (get_edit_history rows gid).head? =
      some (.original orig.prompt orig.enhanced_prompt orig.created_at) ∧
    (get_edit_history rows gid).length = 1 +
      (rows.filter
        (fun r => metaOriginalPrompt r.metadata == some orig.prompt)).length ∧
    ((get_edit_history rows gid).tail).Perm
      ((rows.filter
        (fun r => metaOriginalPrompt r.metadata == some orig.prompt)).map
          editEntry) ∧
    List.Sorted (fun a b => a ≤ b)
      ((get_edit_history rows gid).tail.map LineageEntry.stamp) ∧
    (∀ e ∈ (get_edit_history rows gid).tail, e.isEdit = true) := by
  have hperm := List.perm_insertionSort createdAsc
    (rows.filter (fun r => metaOriginalPrompt r.metadata == some orig.prompt))
  have hsort := List.sorted_insertionSort createdAsc
    (rows.filter (fun r => metaOriginalPrompt r.metadata == some orig.prompt))
  simp only [get_edit_history, h]
  refine ⟨rfl, ?_, ?_, ?_, ?_⟩
  · simp only [List.length_cons, List.length_map, sortByCreatedAsc]
    rw [hperm.length_eq]
    omega
  · simp only [List.tail_cons, sortByCreatedAsc]
    exact hperm.map editEntry
  · simp only [List.tail_cons, List.map_map]
    have hgoal : (LineageEntry.stamp ∘ editEntry) =
        fun r : Record => r.created_at := rfl
    rw [hgoal]
    exact List.Pairwise.map _ (fun a b hab => hab) hsort
  · intro e he
    simp only [List.tail_cons, List.mem_map] at he
    obtain ⟨x, _, hx⟩ := he
    rw [← hx]
    rfl

/-- C5 witness: on a store with one original and two edits the lineage has
exactly 3 entries, in chronological order, first tagged `original`. -/
theorem edit_lineage_structure_witness :
    findById lineageStore 1 = some origRec ∧
    get_edit_history lineageStore 1 =
      [.original "a cat" (some "an enhanced cat") 1,
       .edit "make it blue" (some "a blue cat") (some "an enhanced cat") 2,
       .edit "add a hat" (some "a blue cat with hat") (some "a blue cat") 3] ∧
    ((get_edit_history lineageStore 1).head? =
      some (.original origRec.prompt origRec.enhanced_prompt
        origRec.created_at) ∧
     (get_edit_history lineageStore 1).length = 1 +
      (lineageStore.filter
        (fun r => metaOriginalPrompt r.metadata == some origRec.prompt)).length ∧
     ((get_edit_history lineageStore 1).tail).Perm
      ((lineageStore.filter
        (fun r => metaOriginalPrompt r.metadata == some origRec.prompt)).map
          editEntry) ∧
     List.Sorted (fun a b => a ≤ b)
      ((get_edit_history lineageStore 1).tail.map LineageEntry.stamp) ∧
     (∀ e ∈ (get_edit_history lineageStore 1).tail, e.isEdit = true)) :=
  ⟨by decide, by decide,
   edit_lineage_structure lineageStore 1 origRec (by decide)⟩

/-! ## Claim C6 — id assignment -/

/-- Deleting a row never touches the `AUTOINCREMENT` sequence. -/
theorem delete_generation_seq (db : DB) (fs : List String)
    (ok : String → Bool) (gid : Nat) :
    (delete_generation db fs ok gid).1.seq = db.seq := by
  unfold delete_generation
  cases h : findById db.rows gid <;> simp

/-- No operation decreases the `AUTOINCREMENT` sequence. -/
theorem applyOp_seq_le (ok : String → Bool) (s : Sys) (op : StoreOp) :
    s.db.seq ≤ (applyOp ok s op).db.seq := by
  cases op with
  | save now p e ip mp md => simp [applyOp, save_generation, Nat.le_succ]
  | delete gid => simp [applyOp, delete_generation_seq]
  | clear => simp [applyOp, clear_database]

/-- No trace of operations decreases the `AUTOINCREMENT` sequence. -/
theorem runOps_seq_le (ok : String → Bool) (s : Sys) (ops : List StoreOp) :
    s.db.seq ≤ (runOps ok s ops).db.seq := by
  induction ops generalizing s with
  | nil => exact Nat.le_refl _
  | cons op rest ih =>
    exact Nat.le_trans (applyOp_seq_le ok s op) (ih (applyOp ok s op))

/-- The store invariant: row ids are distinct and bounded by the
`AUTOINCREMENT` sequence. -/
def Inv (db : DB) : Prop :=
  (db.rows.map (fun r => r.id)).Nodup ∧ ∀ r ∈ db.rows, r.id ≤ db.seq

/-- `save_generation` preserves the store invariant: the fresh id `seq + 1`
collides with no existing id. -/
theorem inv_save (db : DB) (now : Nat) (p : String) (e : Option String)
    (ip mp : Option String) (md : Option Metadata) (h : Inv db) :
    Inv (save_generation db now p e ip mp md).1 := by
  obtain ⟨hnd, hle⟩ := h
  constructor
  · simp only [save_generation, List.map_append, List.map_cons, List.map_nil]
    rw [List.nodup_append]
    refine ⟨hnd, List.nodup_singleton _, ?_⟩
    intro a ha hb
    have h1 : a ≤ db.seq := by
      simp only [List.mem_map] at ha
      obtain ⟨r, hr, hra⟩ := ha
      exact hra ▸ hle r hr
    have h2 : a = db.seq + 1 := by simpa using hb
    omega
  · intro r hr
    simp only [save_generation, List.mem_append, List.mem_singleton] at hr
    cases hr with
    | inl hold => exact Nat.le_trans (hle r hold) (Nat.le_succ _)
    | inr hnew => simp [save_generation, hnew]

/-- Every operation preserves the store invariant. -/
theorem inv_applyOp (ok : String → Bool) (s : Sys) (op : StoreOp)
    (h : Inv s.db) : Inv (applyOp ok s op).db := by
  cases op with
  | save now p e ip mp md => exact inv_save s.db now p e ip mp md h
  | delete gid =>
    obtain ⟨hnd, hle⟩ := h
    simp only [applyOp]
    unfold delete_generation
    cases hf : findById s.db.rows gid with
    | none => exact ⟨hnd, hle⟩
    | some r =>
      constructor
      · exact List.Nodup.sublist
          ((List.filter_sublist s.db.rows).map (fun x => x.id)) hnd
      · intro q hq
        exact hle q (List.mem_of_mem_filter hq)
  | clear =>
    refine ⟨by simp [applyOp, clear_database], ?_⟩
    intro r hr
    simp [applyOp, clear_database] at hr

/-- Every trace preserves the store invariant. -/
theorem inv_runOps (ok : String → Bool) (s : Sys) (ops : List StoreOp)
    (h : Inv s.db) : Inv (runOps ok s ops).db := by
  induction ops generalizing s with
  | nil => exact h
  | cons op rest ih => exact ih (applyOp ok s op) (inv_applyOp ok s op h)

/-- C6: a save returns a positive id; an immediately following save
returns a strictly larger id; a save after ANY trace of further saves,
deletions and clears — in particular after deleting the record — still
returns a strictly larger id, so ids are never reused; and every store
reachable from the empty database has pairwise-distinct ids. -/
theorem save_id_assignment (db : DB) (now now2 : Nat) (p p2 : String)
    (e e2 : Option String) (ip ip2 mp mp2 : Option String)
    (md md2 : Option Metadata) (ok : String → Bool) (fs fs0 : List String)
    (ops ops0 : List StoreOp) :
    0 < (save_generation db now p e ip mp md).2 ∧
    (save_generation db now p e ip mp md).2 <
      (save_generation (save_generation db now p e ip mp md).1
        now2 p2 e2 ip2 mp2 md2).2 ∧
    (save_generation db now p e ip mp md).2 <
      (save_generation
        (runOps ok ⟨(save_generation db now p e ip mp md).1, fs⟩ ops).db
        now2 p2 e2 ip2 mp2 md2).2 ∧
    ((runOps ok ⟨DB.empty, fs0⟩ ops0).db.rows.map (fun r => r.id)).Nodup := by
  refine ⟨Nat.succ_pos _, by simp [save_generation], ?_, ?_⟩
  · have hseq := runOps_seq_le ok ⟨(save_generation db now p e ip mp md).1, fs⟩ ops
    simp only [save_generation] at hseq ⊢
    omega
  · have hinv : Inv DB.empty := by
      constructor
      · simp [DB.empty]
      · intro r hr
        simp [DB.empty] at hr
    exact (inv_runOps ok ⟨DB.empty, fs0⟩ ops0 hinv).1

/-! ## Claim C7 — delete semantics -/

/-- `fetchone` finds nothing exactly when no row has the id. -/
theorem findById_none_iff (rows : List Record) (gid : Nat) :
    findById rows gid = none ↔ ∀ r ∈ rows, r.id ≠ gid := by
  simp [findById, List.find?_eq_none]

/-- A row found by id is a member and carries that id. -/
theorem findById_some_mem {rows : List Record} {gid : Nat} {r : Record}
    (h : findById rows gid = some r) : r ∈ rows ∧ r.id = gid :=
  ⟨List.mem_of_find?_eq_some h, by simpa using List.find?_some h⟩

/-- C7: `delete_generation` returns `true` iff a row with the id existed;
on success it removes exactly that row and keeps the sequence; on failure
it changes nothing; and neither the Boolean nor the resulting table depends
on the state of the file system or on whether the `os.remove` calls
succeed — in particular a blob path pointing to a missing file does not
prevent the row deletion. -/
theorem delete_generation_semantics (db : DB) (fs fsb : List String)
    (ok okb : String → Bool) (gid : Nat) :
    ((delete_generation db fs ok gid).2.2 = true ↔
      ∃ r ∈ db.rows, r.id = gid) ∧
    ((delete_generation db fs ok gid).2.2 = true →
      (delete_generation db fs ok gid).1.rows =
        db.rows.filter (fun q => q.id != gid) ∧
      (delete_generation db fs ok gid).1.seq = db.seq) ∧
    ((delete_generation db fs ok gid).2.2 = false →
      delete_generation db fs ok gid = (db, fs, false)) ∧
    (delete_generation db fs ok gid).2.2 =
      (delete_generation db fsb okb gid).2.2 ∧
    (delete_generation db fs ok gid).1 =
      (delete_generation db fsb okb gid).1 := by
  cases h : findById db.rows gid with
  | none =>
    have hall := (findById_none_iff db.rows gid).mp h
    refine ⟨?_, ?_, ?_, ?_, ?_⟩
    · simp only [delete_generation, h]
      simp only [Bool.false_eq_true, false_iff]
      intro hex
      obtain ⟨r, hr, he⟩ := hex
      exact hall r hr he
    · intro hb
      simp [delete_generation, h] at hb
    · intro _
      simp [delete_generation, h]
    · simp [delete_generation, h]
    · simp [delete_generation, h]
  | some r =>
    have hmem := findById_some_mem h
    refine ⟨?_, ?_, ?_, ?_, ?_⟩
    · simp only [delete_generation, h]
      simp only [true_iff]
      exact ⟨r, hmem.1, hmem.2⟩
    · intro _
      simp [delete_generation, h]
    · intro hb
      simp [delete_generation, h] at hb
    · simp [delete_generation, h]
    · simp [delete_generation, h]

/-- A record whose image blob path points to a file that no longer
exists. -/
def missingFileRec : Record :=
  ⟨1, "a ghost", none, some "outputs/images/gone.png", none, 1, none⟩

/-- A one-record database whose blob file is missing. -/
def dbMissing : DB := ⟨[missingFileRec], 1⟩

/-- C7 witness: deleting the record whose blob file is missing (the file
system is empty) still removes the row and returns `true`; deleting a
nonexistent id returns `false` and leaves everything unchanged. -/
theorem delete_generation_semantics_witness :
    ((delete_generation dbMissing [] (fun _ => true) 1).2.2 = true ↔
      ∃ r ∈ dbMissing.rows, r.id = 1) ∧
    (delete_generation dbMissing [] (fun _ => true) 1).1.rows =
      dbMissing.rows.filter (fun q => q.id != 1) ∧
    delete_generation dbMissing [] (fun _ => true) 2 =
      (dbMissing, [], false) ∧
    (delete_generation dbMissing [] (fun _ => true) 1).2.2 = true :=
  ⟨(delete_generation_semantics dbMissing [] []
      (fun _ => true) (fun _ => true) 1).1,
   ((delete_generation_semantics dbMissing [] []
      (fun _ => true) (fun _ => true) 1).2.1 (by decide)).1,
   (delete_generation_semantics dbMissing [] []
      (fun _ => true) (fun _ => true) 2).2.2.1 (by decide),
   by decide⟩

/-! ## Claim C8 — derived status -/

/-- The spec's status rule: model file exists → `Complete`; otherwise
image file exists → `Image Only`; otherwise `Incomplete`. -/
def statusRule (modelExists imageExists : Bool) : String :=
  if modelExists then "Complete"
  else if imageExists then "Image Only"
  else "Incomplete"

/-- C8: every entry reported by `get_database_info` carries a status
computed by the spec's rule from file existence in the file system AS IT IS
AT READ TIME (`fs` is a parameter of the read, not part of any record);
every record is reported exactly once. -/
theorem introspect_status_derivation (rows : List Record)
    (fs : List String) :
    (∀ e ∈ (get_database_info rows fs).entries,
      e.2 = statusRule (pathLive fs e.1.model_path)
        (pathLive fs e.1.image_path)) ∧
    ((get_database_info rows fs).entries.map (fun e => e.1)).Perm rows ∧
    (get_database_info rows fs).total_entries = rows.length := by
  refine ⟨?_, ?_, ?_⟩
  · intro e he
    simp only [get_database_info, List.mem_map] at he
    obtain ⟨r, _, hr⟩ := he
    rw [← hr]
    rfl
  · simp only [get_database_info, List.map_map]
    have hcomp : ((fun e : Record × String => e.1) ∘
        fun r => (r, statusOf fs r)) = id := rfl
    rw [hcomp, List.map_id]
    exact List.perm_insertionSort createdDesc rows
  · simp only [get_database_info, List.length_map, sortByCreatedDesc]
    exact (List.perm_insertionSort createdDesc rows).length_eq

/-- A record whose model and image files both exist. -/
def completeRec : Record :=
  ⟨1, "done", none, some "outputs/images/a.png", some "outputs/models/a.glb",
    1, none⟩

/-- A record with only its image file existing. -/
def imageOnlyRec : Record :=
  ⟨2, "half", none, some "outputs/images/b.png", none, 2, none⟩

/-- A record with no blob files at all. -/
def incompleteRec : Record := ⟨3, "bare", none, none, none, 3, none⟩

/-- The file system for the C8 witness. -/
def infoFs : List String :=
  ["outputs/images/a.png", "outputs/models/a.glb", "outputs/images/b.png"]

/-- The store for the C8 witness. -/
def infoRows : List Record := [completeRec, imageOnlyRec, incompleteRec]

/-- C8 witness: the three statuses over a concrete store, with the
`Complete` entry checked through the theorem. -/
theorem introspect_status_derivation_witness :
    (completeRec, "Complete") ∈ (get_database_info infoRows infoFs).entries ∧
    ((get_database_info infoRows infoFs).entries.map (fun e => e.2) =
      ["Incomplete", "Image Only", "Complete"]) ∧
    (completeRec, "Complete").2 =
      statusRule (pathLive infoFs completeRec.model_path)
        (pathLive infoFs completeRec.image_path) :=
  ⟨by decide, by decide,
   (introspect_status_derivation infoRows infoFs).1
     (completeRec, "Complete") (by decide)⟩

/-! ## Claim C9 — empty prompt accepted -/

/-- C9 counterexample: saving with the empty-string prompt succeeds and
stores a record whose prompt is empty — SQLite `NOT NULL` rejects only
`NULL`, not `''`, and no validation exists in `save_generation`. -/
theorem save_empty_prompt_is_stored :
    (save_generation DB.empty 0 "" (some "enhanced") none none none).1.rows =
      [⟨1, "", some "enhanced", none, none, 0, none⟩] ∧
    (save_generation DB.empty 0 "" (some "enhanced") none none none).2 = 1 := by
  decide

/-- C9 (amended): the store keeps the prompt exactly as supplied — always a
string, never `NULL` — but does NOT enforce non-emptiness: a save with the
empty prompt returns a positive id and produces a stored record with the
empty prompt. -/
theorem save_stores_given_prompt (db : DB) (now : Nat) (e : Option String)
    (ip mp : Option String) (md : Option Metadata) :
    0 < (save_generation db now "" e ip mp md).2 ∧
    ∃ r ∈ (save_generation db now "" e ip mp md).1.rows,
      r.id = (save_generation db now "" e ip mp md).2 ∧ r.prompt = "" := by
  refine ⟨Nat.succ_pos _, ?_⟩
  refine ⟨⟨db.seq + 1, "", e, ip, mp, now, md⟩, ?_, rfl, rfl⟩
  simp [save_generation]

end App
